import Mathlib

/-!
Verification of the chromix-three relay core and the extension URL matcher.

The relay core is the WebSocket module bundled with
src/src/server/chromix-three-server.js: module-level state
consisting of a single connection slot (extensionSocket), a single
pending-request slot (pendingRequest), and the armed setTimeout timers.
We embed it as a state record plus a step function over external events
(handshake, socket close, inbound frame, HTTP submit, timer callback).
Each step returns the new state together with the list of callback
invocations it performs (promise resolve and reject calls, outbound
sends, log lines).  A JavaScript promise adopts its first settlement,
so the HTTP result of a caller is read off as the first resolve or
reject output addressed to that caller.

The URL matcher is urlMatches from src/src/extension/service-worker.js
(lines 181-197): it either falls back to plain substring containment,
or splits the pattern on the star character, escapes every other regex
metacharacter, and runs an unanchored, unflagged regex test of
lit0 .* lit1 .* ... litN against the url.  The dot of an unflagged
JavaScript regex refuses line terminators (LF, CR, LINE SEPARATOR,
PARAGRAPH SEPARATOR), so each dot-star gap may only span
line-terminator-free text, while the unanchored test leaves the text
before the match start and after the match end unconstrained; the
backtracking matchers gapSeek, gapChain and reTest below compute
exactly that test.
-/

/-- A JSON-ish value, the polymorphic payload of a Command Response
(string, number, boolean, null, or a list of tab descriptors). -/
structure Tab where
  id : Nat
  url : String
  title : String
  deriving DecidableEq

inductive JVal where
  | jnull
  | jbool (b : Bool)
  | jnum (n : Int)
  | jstr (s : String)
  | jtabs (ts : List Tab)
  deriving DecidableEq

/-- JavaScript truthiness of a JVal, as used by the
"response.data or fallback" expression at line 280. -/
def jtruthy : JVal → Bool
  | JVal.jnull => false
  | JVal.jbool b => b
  | JVal.jnum n => n != 0
  | JVal.jstr s => s ≠ ""
  | JVal.jtabs _ => true

/-- The error detail the relay rejects with for a failure response:
response.data when truthy, the string "Unknown error" otherwise
(line 280: new Error(response.data or the fallback)). -/
def errDetail (d : JVal) : JVal :=
  if jtruthy d then d else JVal.jstr "Unknown error"

/-- A Command Request as sent over the persistent channel:
id minted by the relay, command, optional url pattern, optional scope. -/
structure Request where
  id : String
  command : String
  url : Option String
  scope : Option String
  deriving DecidableEq

/-- A well-formed Command Response from the executor. -/
structure Response where
  id : String
  success : Bool
  data : JVal
  deriving DecidableEq

/-- The pending-request slot contents (lines 244-252): the request id,
the caller (standing for the resolve and reject callbacks of the
promise created in sendToExtension), and the setTimeout handle. -/
structure Entry where
  id : String
  caller : Nat
  timeout : Nat
  deriving DecidableEq

/-- An armed setTimeout: its handle, the caller whose reject callback
its closure captured, and its absolute due time (registration + 10000). -/
structure Timer where
  tid : Nat
  caller : Nat
  due : Nat
  deriving DecidableEq

/-- A transport handle: an identity and its readyState
(1 is the ws OPEN state checked at lines 238 and 295). -/
structure Socket where
  sid : Nat
  readyState : Nat
  deriving DecidableEq

/-- The module-level state of the relay core: the single connection
slot, the single pending-request slot, and the armed timers. -/
structure RelayState where
  extensionSocket : Option Socket
  pendingRequest : Option Entry
  timers : List Timer
  deriving DecidableEq

/-- Structured error causes for reject calls, one per throw site:
the synchronous not-connected rejection (line 239), the disconnect
rejection (line 212), the timeout rejection (line 250), the failure
response detail (line 280), and a socket.send exception (line 260). -/
inductive ErrMsg where
  | notConnected
  | disconnected
  | requestTimeout
  | responseError (d : JVal)
  | sendError (m : String)
  | bodyParse (m : String)
  deriving DecidableEq

/-- The message string carried by each error cause. -/
def errMessage : ErrMsg → String
  | ErrMsg.notConnected => "Extension not connected"
  | ErrMsg.disconnected => "Extension disconnected"
  | ErrMsg.requestTimeout => "Request timeout"
  | ErrMsg.responseError _ => "Response error detail"
  | ErrMsg.sendError m => m
  | ErrMsg.bodyParse m => m

/-- Observable callback invocations performed by a step: settling a
promise of a caller, writing a frame to the transport, or logging a
parse failure. -/
inductive Output where
  | resolveOut (caller : Nat) (r : Response)
  | rejectOut (caller : Nat) (e : ErrMsg)
  | sendOut (r : Request)
  | logParse (m : String)
  deriving DecidableEq

/-- A raw inbound frame: either JSON.parse throws on it, or it parses
to a well-formed Command Response. -/
inductive RawFrame where
  | malformed (m : String)
  | wellFormed (r : Response)
  deriving DecidableEq

/-- External events driving the relay: a handshake storing a socket, a
close event of some previously attached socket (the handler body at
lines 206-215 never inspects which), an inbound frame, an HTTP submit
(with the fresh timer handle, the current time, and whether the
socket.send call succeeds), and a timer callback becoming due. -/
inductive Event where
  | connect (s : Socket)
  | close (sid : Nat) (t : Nat)
  | message (frame : RawFrame)
  | submit (req : Request) (caller : Nat) (tid : Nat) (now : Nat) (sendOk : Bool) (sendErr : String)
  | timerFire (tid : Nat) (t : Nat)
  deriving DecidableEq

/-- isConnected (lines 294-296): a socket is stored and its readyState
is the OPEN state. -/
def isConnected (st : RelayState) : Bool :=
  match st.extensionSocket with
  | none => false
  | some s => s.readyState == 1

/-- Whether the synchronous promise of sendToExtension settled within
the call (rejected before returning) or is awaiting the extension. -/
inductive SendRes where
  | settledNow (e : ErrMsg)
  | inFlight
  deriving DecidableEq

/-- Cancel the armed timer with the given handle (clearTimeout). -/
def removeTimer (tid : Nat) (ts : List Timer) : List Timer :=
  ts.filter (fun tm => tm.tid != tid)

/-- sendToExtension (lines 235-263).  If no socket is stored or its
readyState is not OPEN, reject immediately with the not-connected
error and change nothing.  Otherwise overwrite the pending slot with a
new entry, arm its 10000ms timer, and attempt the send: on success the
request frame goes out and the promise is in flight; if socket.send
throws, the just-armed timer is cancelled (net: timers unchanged, the
handle tid being fresh), the slot is cleared, and the promise rejects
with the send exception. -/
def sendToExtension (st : RelayState) (req : Request) (caller tid now : Nat)
    (sendOk : Bool) (sendErr : String) :
    (RelayState × List Output) × SendRes :=
  if isConnected st then
    if sendOk then
      (({ st with
          pendingRequest := some ⟨req.id, caller, tid⟩,
          timers := ⟨tid, caller, now + 10000⟩ :: st.timers },
        [Output.sendOut req]), SendRes.inFlight)
    else
      (({ st with pendingRequest := none },
        [Output.rejectOut caller (ErrMsg.sendError sendErr)]),
       SendRes.settledNow (ErrMsg.sendError sendErr))
  else
    ((st, [Output.rejectOut caller ErrMsg.notConnected]),
     SendRes.settledNow ErrMsg.notConnected)

/-- handleExtensionResponse (lines 269-288).  A frame JSON.parse
throws on is caught, logged, and discarded.  A parsed response is
compared against the pending slot: on an id match the timer is
cancelled and the promise settles (resolve on success, reject with the
data-or-fallback detail on failure) and the slot is cleared; otherwise
nothing happens. -/
def handleExtensionResponse (st : RelayState) (frame : RawFrame) :
    RelayState × List Output :=
  match frame with
  | RawFrame.malformed m => (st, [Output.logParse m])
  | RawFrame.wellFormed r =>
    match st.pendingRequest with
    | some e =>
      if e.id = r.id then
        ({ st with pendingRequest := none, timers := removeTimer e.timeout st.timers },
         if r.success then [Output.resolveOut e.caller r]
         else [Output.rejectOut e.caller (ErrMsg.responseError (errDetail r.data))])
      else (st, [])
    | none => (st, [])

/-- The timer callback registered at lines 248-251: if the handle was
cleared the callback never runs (no-op); otherwise it disarms itself,
unconditionally nulls the pending slot, and rejects the caller whose
reject it captured with the timeout error. -/
def fireTimer (st : RelayState) (tid : Nat) : RelayState × List Output :=
  match st.timers.find? (fun tm => tm.tid == tid) with
  | none => (st, [])
  | some tm =>
    ({ st with pendingRequest := none, timers := removeTimer tid st.timers },
     [Output.rejectOut tm.caller ErrMsg.requestTimeout])

/-- One event-loop step of the relay.  connect stores the new socket
(line 198).  close (lines 206-215) clears the connection slot and, if
an entry is pending, rejects it with the disconnect error and clears
the slot; the handler body ignores which socket closed and does not
touch the timers.  message and timerFire dispatch to the handlers
above; submit runs sendToExtension. -/
def step (st : RelayState) (ev : Event) : RelayState × List Output :=
  match ev with
  | Event.connect s => ({ st with extensionSocket := some s }, [])
  | Event.close _ _ =>
    match st.pendingRequest with
    | some e =>
      ({ st with extensionSocket := none, pendingRequest := none },
       [Output.rejectOut e.caller ErrMsg.disconnected])
    | none => ({ st with extensionSocket := none }, [])
  | Event.message frame => handleExtensionResponse st frame
  | Event.submit req caller tid now sendOk sendErr =>
    (sendToExtension st req caller tid now sendOk sendErr).1
  | Event.timerFire tid _ => fireTimer st tid

/-- Run a list of events from a state, collecting all outputs. -/
def runEvents (st : RelayState) (evs : List Event) : RelayState × List Output :=
  match evs with
  | [] => (st, [])
  | e :: rest =>
    let p := step st e
    let q := runEvents p.1 rest
    (q.1, p.2 ++ q.2)

/-- Whether an output settles the promise of the given caller. -/
def settlesFor (c : Nat) : Output → Bool
  | Output.resolveOut c2 _ => c2 == c
  | Output.rejectOut c2 _ => c2 == c
  | _ => false

/-- The settlement a promise adopts: the first resolve or reject
invocation addressed to its caller. -/
def firstSettlement (c : Nat) (outs : List Output) : Option Output :=
  outs.find? (settlesFor c)

/-- Map a settlement to the HTTP response handleRequest produces for
it (lines 94-107): an awaited resolve is returned as 200 with the
whole response object serialized; an awaited reject is caught and
returned as 500 with a success-false body carrying the error message. -/
inductive HttpBody where
  | errorOnly (e : String)
  | failure (e : ErrMsg)
  | responseBody (r : Response)
  deriving DecidableEq

def settleToHttp : Output → Option (Nat × HttpBody)
  | Output.resolveOut _ r => some (200, HttpBody.responseBody r)
  | Output.rejectOut _ e => some (500, HttpBody.failure e)
  | _ => none

/-- The parsed body of a POST to the command endpoint: either
JSON.parse throws on it, or it yields optional command, url and scope
fields (a missing command and an empty command are both falsy at
line 82). -/
inductive CmdBody where
  | malformed (m : String)
  | parsed (command : Option String) (url : Option String) (scope : Option String)
  deriving DecidableEq

/-- The outcome of the POST handler within its own step: an immediate
response, or suspension until the submitted promise settles. -/
inductive PostResult where
  | done (status : Nat) (body : HttpBody)
  | awaiting (req : Request) (caller : Nat)
  deriving DecidableEq

/-- Whether the command field is falsy (absent or empty string),
the check !request.command at line 82. -/
def missingCommand : Option String → Bool
  | none => true
  | some c => c == ""

/-- The POST /api/command path of handleRequest (lines 75-108).  A
body JSON.parse throws on is caught and answered 500 with the parse
error.  A falsy command field is answered 400 with the missing-command
body and nothing else happens.  Otherwise the handler mints a fresh id,
builds the Command Request and awaits sendToExtension: a synchronous
rejection is caught and answered 500 at once, a successful send leaves
the caller suspended on the pending promise. -/
def handleCommandPost (st : RelayState) (body : CmdBody) (fresh : String)
    (caller tid now : Nat) (sendOk : Bool) (sendErr : String) :
    RelayState × List Output × PostResult :=
  match body with
  | CmdBody.malformed m =>
    (st, [], PostResult.done 500 (HttpBody.failure (ErrMsg.bodyParse m)))
  | CmdBody.parsed command url scope =>
    if missingCommand command then
      (st, [], PostResult.done 400 (HttpBody.errorOnly "Missing command field"))
    else
      match command with
      | none => (st, [], PostResult.done 400 (HttpBody.errorOnly "Missing command field"))
      | some c =>
        let req : Request := ⟨fresh, c, url, scope⟩
        let r := sendToExtension st req caller tid now sendOk sendErr
        match r.2 with
        | SendRes.settledNow e => (r.1.1, r.1.2, PostResult.done 500 (HttpBody.failure e))
        | SendRes.inFlight => (r.1.1, r.1.2, PostResult.awaiting req caller)

/-!
The extension URL matcher, urlMatches (service-worker.js lines
181-197), over character lists.
-/

/-- Whether the first list is an initial run of the second. -/
def leadsWith : List Char → List Char → Bool
  | [], _ => true
  | _ :: _, [] => false
  | a :: as, b :: bs => a == b && leadsWith as bs

/-- Index of the first occurrence of sub in hay, if any. -/
def firstHit (sub : List Char) : List Char → Option Nat
  | [] => if leadsWith sub [] then some 0 else none
  | c :: t =>
    if leadsWith sub (c :: t) then some 0
    else (firstHit sub t).map (fun k => k + 1)

/-- ECMAScript line terminators: the characters the regex dot refuses
when no flags are given (LF, CR, LINE SEPARATOR, PARAGRAPH
SEPARATOR).  The source builds its regex with new RegExp and no flags
(line 191), so each dot-star gap excludes exactly these. -/
def isLineTerm (c : Char) : Bool :=
  c == Char.ofNat 10 || c == Char.ofNat 13 ||
  c == Char.ofNat 8232 || c == Char.ofNat 8233

/-- Backtracking search for the regex fragment dot-star lit(s) with
continuation k at the current position: either the literal s matches
right here and k accepts the remainder, or the gap consumes one more
character, which the dot refuses if it is a line terminator. -/
def gapSeek (s : List Char) (k : List Char → Bool) : List Char → Bool
  | [] => leadsWith s [] && k []
  | c :: t =>
    (leadsWith s (c :: t) && k ((c :: t).drop s.length)) ||
    (!isLineTerm c && gapSeek s k t)

/-- The regex fragment dot-star lit(s1) dot-star lit(s2) ... matching
at the current position, each gap free of line terminators; the text
after the last literal is unconstrained. -/
def gapChain : List (List Char) → List Char → Bool
  | [], _ => true
  | s :: rest, hay => gapSeek s (gapChain rest) hay

/-- The unanchored test of lit(s) dot-star lit(s1) dot-star ... : a
match may start at any position of the haystack, as RegExp test
scans; text before the match start is unconstrained. -/
def reTest (s : List Char) (rest : List (List Char)) : List Char → Bool
  | [] => leadsWith s [] && gapChain rest []
  | c :: t =>
    (leadsWith s (c :: t) && gapChain rest ((c :: t).drop s.length)) ||
    reTest s rest t

/-- Split a character list on the star character; the star characters
are exactly the segment boundaries of the regex the source builds. -/
def splitStar : List Char → List (List Char)
  | [] => [[]]
  | c :: rest =>
    if c = '*' then [] :: splitStar rest
    else
      match splitStar rest with
      | [] => [[c]]
      | h :: t => (c :: h) :: t

/-- Plain substring containment, url.includes(pattern) at line 196. -/
def subHit (sub hay : List Char) : Bool :=
  (firstHit sub hay).isSome

/-- The whole star regex built by the source run over the haystack:
the escaped pattern splits into literal segments joined by dot-star,
and the test is unanchored.  splitStar never yields the empty list;
its empty-list branch mirrors the empty regex, which matches
everywhere. -/
def starMatch (segs : List (List Char)) (hay : List Char) : Bool :=
  match segs with
  | [] => true
  | s :: rest => reTest s rest hay

/-- urlMatches (lines 181-197).  A falsy pattern (absent, modelled as
none, or empty) matches everything.  A pattern containing a star is
split into literal segments (every other regex metacharacter being
escaped at line 188) and run as the unanchored regex test, whose
dot-star gaps refuse line terminators; a pattern without a star is a
plain substring test via url.includes. -/
def urlMatches (url : String) (pattern : Option String) : Bool :=
  match pattern with
  | none => true
  | some p =>
    if p = "" then true
    else if p.toList.contains '*' then starMatch (splitStar p.toList) url.toList
    else subHit p.toList url.toList

/-- Modelled from the spec: the url contains the given literal
segments in order, each separated by an arbitrary substring. -/
def specSegs : List (List Char) → List Char → Prop
  | [], _ => True
  | s :: rest, hay => ∃ a b, hay = a ++ s ++ b ∧ specSegs rest b

/-- Modelled from the spec: plain substring containment. -/
def specContains (sub hay : List Char) : Prop :=
  ∃ a b, hay = a ++ sub ++ b

/-- Modelled from the spec: an absent pattern matches every url; a
pattern containing a star matches when the url contains the literal
segments of the pattern in order with each star matching any
substring; a pattern without a star matches when the url contains the
pattern as a plain substring. -/
def SpecMatches (url : String) (pattern : Option String) : Prop :=
  match pattern with
  | none => True
  | some p =>
    if p.toList.contains '*' then specSegs (splitStar p.toList) url.toList
    else specContains p.toList url.toList

/-- A gap the regex dot-star can produce: a substring containing no
line terminator. -/
def gapFree (g : List Char) : Prop :=
  ∀ c ∈ g, isLineTerm c = false

/-- Declarative semantics of the fragment dot-star lit(s1) dot-star
lit(s2) ... at the current position: the haystack decomposes into a
line-terminator-free gap, the literal, and a remainder matched by the
rest; after the last literal anything may follow. -/
def specJSSegs : List (List Char) → List Char → Prop
  | [], _ => True
  | s :: rest, hay => ∃ g b, hay = g ++ s ++ b ∧ gapFree g ∧ specJSSegs rest b

/-- Declarative semantics of the unanchored star regex: anything may
precede the first literal, and between consecutive literals each star
stands for a line-terminator-free substring. -/
def SpecStarJS (segs : List (List Char)) (hay : List Char) : Prop :=
  match segs with
  | [] => True
  | s :: rest => ∃ a b, hay = a ++ s ++ b ∧ specJSSegs rest b

/-- The amended matcher semantics: an absent or empty pattern matches
every url; a pattern containing a star matches when the url contains
the literal segments of the pattern in order where each star matches
any substring free of line terminators (the dot of an unflagged
JavaScript regex refuses them), with the text before the first and
after the last segment unconstrained; a pattern without a star matches
when the url contains it as a plain substring. -/
def SpecMatchesJS (url : String) (pattern : Option String) : Prop :=
  match pattern with
  | none => True
  | some p =>
    if p.toList.contains '*' then SpecStarJS (splitStar p.toList) url.toList
    else specContains p.toList url.toList

/-- The slot holds no entry of the given caller. -/
def notMine (c : Nat) (st : RelayState) : Prop :=
  ∀ e : Entry, st.pendingRequest = some e → e.caller ≠ c

/-- The event is not a submit on behalf of the given caller (each HTTP
request creates a fresh promise, so a caller appears in at most one
submit). -/
def avoidsSubmitBy (c : Nat) : Event → Prop
  | Event.submit _ c2 _ _ _ _ => c2 ≠ c
  | _ => True

/-- Sample transports and requests for concrete executions. -/
def sock1 : Socket := ⟨1, 1⟩

def sock2 : Socket := ⟨2, 1⟩

def req1 : Request := ⟨"req-1", "ping", none, none⟩

def req2 : Request := ⟨"req-2", "reload", some "10.10.*.*", some "first"⟩

/-- The initial module state: no connection, no pending request. -/
def st0 : RelayState := ⟨none, none, []⟩

/-- A connected state carrying a pending entry of caller 1 whose timer
is due at 10100. -/
def stPend : RelayState :=
  ⟨some sock1, some ⟨"req-1", 1, 101⟩, [⟨101, 1, 10100⟩]⟩

/-- The relay state after a ping command of caller 9 was accepted
while connected (used to exercise the response path end to end). -/
def stC1after : RelayState :=
  (handleCommandPost ⟨some sock1, none, []⟩ (CmdBody.parsed (some "ping") none none)
    "f-1" 9 201 0 true "").1

/-! Lemmas about the segment matcher. -/

theorem leadsWith_iff (s : List Char) : ∀ h : List Char,
    leadsWith s h = true ↔ ∃ t, h = s ++ t := by
  induction s with
  | nil =>
    intro h
    simp [leadsWith]
  | cons a as ih =>
    intro h
    cases h with
    | nil =>
      simp [leadsWith]
    | cons b bs =>
      constructor
      · intro hw
        simp only [leadsWith, Bool.and_eq_true, beq_iff_eq] at hw
        obtain ⟨t, ht⟩ := (ih bs).mp hw.2
        exact ⟨t, by rw [hw.1, ht]; rfl⟩
      · rintro ⟨t, ht⟩
        simp only [List.cons_append, List.cons.injEq] at ht
        simp only [leadsWith, Bool.and_eq_true, beq_iff_eq]
        exact ⟨ht.1.symm, (ih bs).mpr ⟨t, ht.2⟩⟩

theorem firstHit_zero_of_leadsWith (sub h : List Char)
    (hw : leadsWith sub h = true) : firstHit sub h = some 0 := by
  cases h with
  | nil => simp [firstHit, hw]
  | cons c t => simp [firstHit, hw]

theorem firstHit_sound (sub : List Char) : ∀ (hay : List Char) (k : Nat),
    firstHit sub hay = some k → ∃ a b, hay = a ++ sub ++ b ∧ a.length = k := by
  intro hay
  induction hay with
  | nil =>
    intro k hk
    simp only [firstHit] at hk
    split at hk
    · obtain ⟨t, ht⟩ := (leadsWith_iff sub []).mp (by assumption)
      have hsub : sub = [] := by
        cases sub with
        | nil => rfl
        | cons c cs => simp at ht
      cases hk
      exact ⟨[], [], by simp [hsub], rfl⟩
    · cases hk
  | cons c t ih =>
    intro k hk
    simp only [firstHit] at hk
    split at hk
    · obtain ⟨u, hu⟩ := (leadsWith_iff sub (c :: t)).mp (by assumption)
      cases hk
      exact ⟨[], u, by simp [hu], rfl⟩
    · cases hft : firstHit sub t with
      | none => rw [hft] at hk; simp at hk
      | some k2 =>
        rw [hft] at hk
        simp at hk
        obtain ⟨a, b, hab, hlen⟩ := ih k2 hft
        refine ⟨c :: a, b, by simp [hab], ?_⟩
        simp only [List.length_cons, hlen]
        omega

theorem firstHit_complete (sub : List Char) : ∀ (a b : List Char),
    ∃ k, firstHit sub (a ++ sub ++ b) = some k ∧ k ≤ a.length := by
  intro a
  induction a with
  | nil =>
    intro b
    refine ⟨0, ?_, Nat.le_refl 0⟩
    have hw : leadsWith sub (sub ++ b) = true := (leadsWith_iff sub (sub ++ b)).mpr ⟨b, rfl⟩
    have : ([] : List Char) ++ sub ++ b = sub ++ b := by simp
    rw [this]
    exact firstHit_zero_of_leadsWith sub (sub ++ b) hw
  | cons c a2 ih =>
    intro b
    obtain ⟨k2, hk2, hle⟩ := ih b
    have hshape : (c :: a2) ++ sub ++ b = c :: (a2 ++ sub ++ b) := by simp
    by_cases hw : leadsWith sub (c :: (a2 ++ sub ++ b)) = true
    · refine ⟨0, ?_, Nat.zero_le _⟩
      rw [hshape]
      exact firstHit_zero_of_leadsWith sub (c :: (a2 ++ sub ++ b)) hw
    · refine ⟨k2 + 1, ?_, Nat.succ_le_succ hle⟩
      rw [hshape]
      simp only [firstHit]
      rw [if_neg hw, hk2]
      rfl

theorem gapSeek_iff (s : List Char) (k : List Char → Bool) (K : List Char → Prop)
    (hk : ∀ h : List Char, k h = true ↔ K h) : ∀ hay : List Char,
    gapSeek s k hay = true ↔ ∃ g b, hay = g ++ s ++ b ∧ gapFree g ∧ K b := by
  intro hay
  induction hay with
  | nil =>
    simp only [gapSeek, Bool.and_eq_true]
    constructor
    · intro h
      obtain ⟨t, ht⟩ := (leadsWith_iff s []).mp h.1
      have hs : s = [] := by
        cases s with
        | nil => rfl
        | cons a as => exact absurd ht (by simp)
      refine ⟨[], [], by simp [hs], ?_, (hk []).mp h.2⟩
      intro c hc
      exact absurd hc (by simp)
    · rintro ⟨g, b, heq, hgf, hK⟩
      have h4 := heq.symm
      simp only [List.append_eq_nil] at h4
      refine ⟨?_, ?_⟩
      · rw [h4.1.2]
        rfl
      · exact (hk []).mpr (h4.2 ▸ hK)
  | cons c t ih =>
    simp only [gapSeek, Bool.or_eq_true, Bool.and_eq_true]
    constructor
    · intro h
      rcases h with ⟨hlw, hkd⟩ | ⟨hnt, hseek⟩
      · obtain ⟨b, hb⟩ := (leadsWith_iff s (c :: t)).mp hlw
        have hdrop : (c :: t).drop s.length = b := by
          rw [hb, List.drop_left]
        rw [hdrop] at hkd
        refine ⟨[], b, by simp [hb], ?_, (hk b).mp hkd⟩
        intro x hx
        exact absurd hx (by simp)
      · obtain ⟨g, b, heq, hgf, hK⟩ := ih.mp hseek
        refine ⟨c :: g, b, by simp [heq], ?_, hK⟩
        intro x hx
        rcases List.mem_cons.mp hx with rfl | hx2
        · simpa using hnt
        · exact hgf x hx2
    · rintro ⟨g, b, heq, hgf, hK⟩
      cases g with
      | nil =>
        left
        simp only [List.nil_append] at heq
        refine ⟨(leadsWith_iff s (c :: t)).mpr ⟨b, heq⟩, ?_⟩
        have hdrop : (c :: t).drop s.length = b := by
          rw [heq, List.drop_left]
        rw [hdrop]
        exact (hk b).mpr hK
      | cons c2 g2 =>
        right
        have h2 : c = c2 ∧ t = g2 ++ s ++ b := by
          simpa using heq
        refine ⟨?_, ?_⟩
        · have hc2 : isLineTerm c2 = false := hgf c2 (by simp)
          simp [h2.1, hc2]
        · exact ih.mpr ⟨g2, b, h2.2, fun x hx => hgf x (by simp [hx]), hK⟩

theorem gapChain_iff (segs : List (List Char)) : ∀ hay : List Char,
    gapChain segs hay = true ↔ specJSSegs segs hay := by
  induction segs with
  | nil =>
    intro hay
    simp [gapChain, specJSSegs]
  | cons s rest ih =>
    intro hay
    show gapSeek s (gapChain rest) hay = true ↔ _
    exact gapSeek_iff s (gapChain rest) (specJSSegs rest) ih hay

theorem reTest_iff (s : List Char) (rest : List (List Char)) : ∀ hay : List Char,
    reTest s rest hay = true ↔ ∃ a b, hay = a ++ s ++ b ∧ specJSSegs rest b := by
  intro hay
  induction hay with
  | nil =>
    simp only [reTest, Bool.and_eq_true]
    constructor
    · intro h
      obtain ⟨t, ht⟩ := (leadsWith_iff s []).mp h.1
      have hs : s = [] := by
        cases s with
        | nil => rfl
        | cons a as => exact absurd ht (by simp)
      exact ⟨[], [], by simp [hs], (gapChain_iff rest []).mp h.2⟩
    · rintro ⟨a, b, heq, hrest⟩
      have h4 := heq.symm
      simp only [List.append_eq_nil] at h4
      refine ⟨?_, ?_⟩
      · rw [h4.1.2]
        rfl
      · exact (gapChain_iff rest []).mpr (h4.2 ▸ hrest)
  | cons c t ih =>
    simp only [reTest, Bool.or_eq_true, Bool.and_eq_true]
    constructor
    · intro h
      rcases h with ⟨hlw, hgc⟩ | hrt
      · obtain ⟨b, hb⟩ := (leadsWith_iff s (c :: t)).mp hlw
        have hdrop : (c :: t).drop s.length = b := by
          rw [hb, List.drop_left]
        rw [hdrop] at hgc
        exact ⟨[], b, by simp [hb], (gapChain_iff rest b).mp hgc⟩
      · obtain ⟨a, b, heq, hrest⟩ := ih.mp hrt
        exact ⟨c :: a, b, by simp [heq], hrest⟩
    · rintro ⟨a, b, heq, hrest⟩
      cases a with
      | nil =>
        left
        simp only [List.nil_append] at heq
        refine ⟨(leadsWith_iff s (c :: t)).mpr ⟨b, heq⟩, ?_⟩
        have hdrop : (c :: t).drop s.length = b := by
          rw [heq, List.drop_left]
        rw [hdrop]
        exact (gapChain_iff rest b).mpr hrest
      | cons c2 a2 =>
        right
        have h2 : c = c2 ∧ t = a2 ++ s ++ b := by
          simpa using heq
        exact ih.mpr ⟨a2, b, h2.2, hrest⟩

theorem starMatch_iff (segs : List (List Char)) (hay : List Char) :
    starMatch segs hay = true ↔ SpecStarJS segs hay := by
  cases segs with
  | nil => simp [starMatch, SpecStarJS]
  | cons s rest =>
    show reTest s rest hay = true ↔ _
    exact reTest_iff s rest hay

theorem subHit_iff (sub hay : List Char) :
    subHit sub hay = true ↔ specContains sub hay := by
  constructor
  · intro h
    cases hfh : firstHit sub hay with
    | none => rw [subHit, hfh] at h; simp at h
    | some k =>
      obtain ⟨a, b, hab, _⟩ := firstHit_sound sub hay k hfh
      exact ⟨a, b, hab⟩
  · rintro ⟨a, b, hab⟩
    subst hab
    obtain ⟨k, hk, _⟩ := firstHit_complete sub a b
    unfold subHit
    rw [hk]
    rfl

/-- C9 counterexample: the dot of the unflagged regex the source
builds refuses line terminators, so urlMatches rejects the url with a
newline between the two literal segments, while the specified
semantics (each star matches any substring) accepts it: the claimed
equivalence fails at url "a\nb" with pattern "a*b". -/
theorem c9_lineterm_counterexample :
    urlMatches "a\nb" (some "a*b") = false ∧ SpecMatches "a\nb" (some "a*b") := by
  constructor
  · decide
  · show if ("a*b" : String).toList.contains '*' = true then
        specSegs (splitStar ("a*b" : String).toList) ("a\nb" : String).toList
      else specContains ("a*b" : String).toList ("a\nb" : String).toList
    rw [if_pos (by decide)]
    have hs : splitStar ("a*b" : String).toList = [[Char.ofNat 97], [Char.ofNat 98]] := by
      decide
    have hu : ("a\nb" : String).toList = [Char.ofNat 97, Char.ofNat 10, Char.ofNat 98] := by
      decide
    rw [hs, hu]
    exact ⟨[], [Char.ofNat 10, Char.ofNat 98], rfl,
      ⟨[Char.ofNat 10], [], rfl, trivial⟩⟩

/-- C9 (amended): for every url and pattern, the executor pattern
matcher returns true exactly under these semantics: a pattern with a
star matches when the url contains the literal segments of the
pattern in order where each star matches any substring free of line
terminators (the dot of the unflagged regex refuses LF, CR, LINE
SEPARATOR and PARAGRAPH SEPARATOR) and the text before the first and
after the last segment is unconstrained (all other regex
metacharacters being escaped and hence literal); a pattern without a
star matches exactly when the url contains it as a plain substring;
an absent pattern matches every url. -/
theorem c9_urlMatches_js_semantics (url : String) (pattern : Option String) :
    urlMatches url pattern = true ↔ SpecMatchesJS url pattern := by
  cases pattern with
  | none => simp [urlMatches, SpecMatchesJS]
  | some p =>
    by_cases hp : p = ""
    · subst hp
      have he : ("" : String).toList = [] := rfl
      have h1 : urlMatches url (some "") = true := by
        show (if ("" : String) = "" then true
              else if ("" : String).toList.contains '*' = true then
                starMatch (splitStar ("" : String).toList) url.toList
              else subHit ("" : String).toList url.toList) = true
        rw [if_pos rfl]
      have h2 : SpecMatchesJS url (some "") := by
        show if ("" : String).toList.contains '*' = true then
            SpecStarJS (splitStar ("" : String).toList) url.toList
          else specContains ("" : String).toList url.toList
        rw [if_neg (by rw [he]; simp)]
        exact ⟨[], url.toList, by rw [he]; simp⟩
      exact ⟨fun _ => h2, fun _ => h1⟩
    · have h1 : urlMatches url (some p) =
          (if p.toList.contains '*' = true then starMatch (splitStar p.toList) url.toList
           else subHit p.toList url.toList) := by
        show (if p = "" then true
              else if p.toList.contains '*' = true then starMatch (splitStar p.toList) url.toList
              else subHit p.toList url.toList) = _
        rw [if_neg hp]
      rw [h1]
      show _ ↔ (if p.toList.contains '*' = true then SpecStarJS (splitStar p.toList) url.toList
                else specContains p.toList url.toList)
      by_cases hstar : p.toList.contains '*' = true
      · rw [if_pos hstar, if_pos hstar]
        exact starMatch_iff (splitStar p.toList) url.toList
      · rw [if_neg hstar, if_neg hstar]
        exact subHit_iff p.toList url.toList

/-! Lemmas about the relay step function. -/

theorem step_no_resolve (c : Nat) (st : RelayState) (ev : Event)
    (hinv : notMine c st) (hav : avoidsSubmitBy c ev) :
    notMine c (step st ev).1 ∧ ∀ r : Response, Output.resolveOut c r ∉ (step st ev).2 := by
  cases ev with
  | connect s =>
    refine ⟨?_, ?_⟩
    · intro e he
      exact hinv e he
    · intro r
      simp [step]
  | close sid t =>
    cases hp : st.pendingRequest with
    | none =>
      refine ⟨?_, ?_⟩
      · intro e he
        simp only [step, hp] at he
        exact Option.noConfusion he
      · intro r
        simp [step, hp]
    | some e2 =>
      refine ⟨?_, ?_⟩
      · intro e he
        simp only [step, hp] at he
        exact Option.noConfusion he
      · intro r
        simp [step, hp]
  | message frame =>
    cases frame with
    | malformed m =>
      refine ⟨?_, ?_⟩
      · intro e he
        simp only [step, handleExtensionResponse] at he
        exact hinv e he
      · intro r
        simp [step, handleExtensionResponse]
    | wellFormed r2 =>
      cases hp : st.pendingRequest with
      | none =>
        refine ⟨?_, ?_⟩
        · intro e he
          simp only [step, handleExtensionResponse, hp] at he
          exact Option.noConfusion he
        · intro r
          simp [step, handleExtensionResponse, hp]
      | some e2 =>
        by_cases hid : e2.id = r2.id
        · refine ⟨?_, ?_⟩
          · intro e he
            simp only [step, handleExtensionResponse, hp, if_pos hid] at he
            exact Option.noConfusion he
          · intro r
            have hc2 : e2.caller ≠ c := hinv e2 hp
            cases hs : r2.success
            · simp [step, handleExtensionResponse, hp, hid, hs]
            · intro hmem
              simp [step, handleExtensionResponse, hp, hid, hs] at hmem
              exact hc2 hmem.1.symm
        · refine ⟨?_, ?_⟩
          · intro e he
            simp only [step, handleExtensionResponse, hp, if_neg hid] at he
            cases he
            exact hinv e2 hp
          · intro r
            simp [step, handleExtensionResponse, hp, hid]
  | submit req c2 tid now sendOk sendErr =>
    have hc2 : c2 ≠ c := hav
    cases hco : isConnected st with
    | false =>
      refine ⟨?_, ?_⟩
      · intro e he
        simp only [step, sendToExtension, hco] at he
        exact hinv e he
      · intro r
        simp [step, sendToExtension, hco]
    | true =>
      cases sendOk with
      | true =>
        refine ⟨?_, ?_⟩
        · intro e he
          simp only [step, sendToExtension, hco, if_pos rfl] at he
          cases he
          exact hc2
        · intro r
          simp [step, sendToExtension, hco]
      | false =>
        refine ⟨?_, ?_⟩
        · intro e he
          simp only [step, sendToExtension, hco] at he
          exact Option.noConfusion he
        · intro r
          simp [step, sendToExtension, hco]
  | timerFire tid t =>
    cases hf : st.timers.find? (fun tm => tm.tid == tid) with
    | none =>
      refine ⟨?_, ?_⟩
      · intro e he
        simp only [step, fireTimer, hf] at he
        exact hinv e he
      · intro r
        simp [step, fireTimer, hf]
    | some tm =>
      refine ⟨?_, ?_⟩
      · intro e he
        simp only [step, fireTimer, hf] at he
        exact Option.noConfusion he
      · intro r
        simp [step, fireTimer, hf]

theorem run_no_resolve (c : Nat) : ∀ (evs : List Event) (st : RelayState),
    notMine c st → (∀ ev ∈ evs, avoidsSubmitBy c ev) →
    ∀ r : Response, Output.resolveOut c r ∉ (runEvents st evs).2 := by
  intro evs
  induction evs with
  | nil =>
    intro st _ _ r
    simp [runEvents]
  | cons e rest ih =>
    intro st hinv hav r
    obtain ⟨hinv2, hno⟩ := step_no_resolve c st e hinv (hav e (by simp))
    intro hmem
    simp only [runEvents, List.mem_append] at hmem
    rcases hmem with h1 | h2
    · exact hno r h1
    · exact ih (step st e).1 hinv2 (fun ev hm => hav ev (by simp [hm])) r h2

/-! Claim theorems. -/

/-- C5: when no executor is connected (no stored socket, or a stored
socket whose readyState is not OPEN), submitting a valid command fails
immediately with the transport error: no Pending Entry is registered,
no timer is armed, no frame is sent, and the HTTP caller receives a
success-false body carrying the message "Extension not connected". -/
theorem c5_not_connected_immediate (st : RelayState) (c : String)
    (url scope : Option String) (fresh : String) (caller tid now : Nat)
    (sendOk : Bool) (sendErr : String)
    (hconn : isConnected st = false) (hc : c ≠ "") :
    handleCommandPost st (CmdBody.parsed (some c) url scope) fresh caller tid now sendOk sendErr =
      (st, [Output.rejectOut caller ErrMsg.notConnected],
       PostResult.done 500 (HttpBody.failure ErrMsg.notConnected)) ∧
    errMessage ErrMsg.notConnected = "Extension not connected" := by
  have hm : missingCommand (some c) = false := by
    simp [missingCommand, hc]
  refine ⟨?_, rfl⟩
  simp [handleCommandPost, hm, sendToExtension, hconn]

/-- C5 witness: a concrete disconnected submit. -/
theorem c5_not_connected_immediate_witness :
    handleCommandPost st0 (CmdBody.parsed (some "ping") none none) "w-5" 4 401 0 true "" =
      (st0, [Output.rejectOut 4 ErrMsg.notConnected],
       PostResult.done 500 (HttpBody.failure ErrMsg.notConnected)) ∧
    errMessage ErrMsg.notConnected = "Extension not connected" :=
  c5_not_connected_immediate st0 "ping" none none "w-5" 4 401 0 true ""
    (by decide) (by decide)

/-- C6: a well-formed response whose id does not match the current
Pending Entry, or that arrives while no entry is pending, is dropped
with no effect at all: the step returns the state unchanged (pending
slot, its timer, and connection slot included) and performs no
callback invocation, so no in-flight or future request is affected. -/
theorem c6_unmatched_response_dropped (st : RelayState) (r : Response)
    (h : st.pendingRequest = none ∨ ∀ e : Entry, st.pendingRequest = some e → e.id ≠ r.id) :
    step st (Event.message (RawFrame.wellFormed r)) = (st, []) := by
  simp only [step, handleExtensionResponse]
  cases hp : st.pendingRequest with
  | none => rfl
  | some e =>
    have hne : e.id ≠ r.id := by
      cases h with
      | inl h0 =>
        rw [hp] at h0
        exact Option.noConfusion h0
      | inr h1 => exact h1 e hp
    simp [hne]

/-- C6 witness: a mismatching id against a pending entry, and a
response arriving with no pending entry. -/
theorem c6_unmatched_response_dropped_witness :
    step stPend (Event.message (RawFrame.wellFormed ⟨"other-id", true, JVal.jstr "pong"⟩)) =
      (stPend, []) :=
  c6_unmatched_response_dropped stPend ⟨"other-id", true, JVal.jstr "pong"⟩
    (Or.inr (by intro e he; cases he; decide))

/-- C7: the message handler is total on frames that fail to
deserialize: the malformed payload is only logged and discarded, the
handler returns normally (the try/catch at lines 270-287 contains the
whole body, so no exception escapes and the process survives), the
Pending Entry and all other state are untouched, and no caller-visible
settlement is produced. -/
theorem c7_malformed_frame_safe (st : RelayState) (m : String) :
    step st (Event.message (RawFrame.malformed m)) = (st, [Output.logParse m]) := rfl

/-- C8: a POST body whose command field is absent or empty is answered
400 with the missing-command error body; the state is unchanged (no
Pending Entry registered) and no message is sent over the channel. -/
theorem c8_missing_command_rejected (st : RelayState) (command url scope : Option String)
    (fresh : String) (caller tid now : Nat) (sendOk : Bool) (sendErr : String)
    (hmc : missingCommand command = true) :
    handleCommandPost st (CmdBody.parsed command url scope) fresh caller tid now sendOk sendErr =
      (st, [], PostResult.done 400 (HttpBody.errorOnly "Missing command field")) := by
  simp [handleCommandPost, hmc]

/-- C8 witness: the empty body (no command field) from the spec
scenario, submitted at a connected state. -/
theorem c8_missing_command_rejected_witness :
    handleCommandPost stPend (CmdBody.parsed none none none) "w-8" 6 601 0 true "" =
      (stPend, [], PostResult.done 400 (HttpBody.errorOnly "Missing command field")) :=
  c8_missing_command_rejected stPend none none none "w-8" 6 601 0 true "" (by decide)

/-- C3: on the Connected to NoConnection transition the close handler
itself (lines 206-215) rejects a pending entry with the disconnect
error and clears the slot within that very step, never deferring to
the timer.  A close event processed at time t earlier than the due
time of the deadline timer of the entry therefore settles the caller
at t, strictly before its timeout deadline, so the caller never waits
past connection loss. -/
theorem c3_disconnect_before_deadline (st : RelayState) (e : Entry) (tm : Timer)
    (sid t : Nat) (hp : st.pendingRequest = some e) (htm : tm.tid = e.timeout)
    (hmem : tm ∈ st.timers) (ht : t < tm.due) :
    (step st (Event.close sid t)).1.pendingRequest = none ∧
    (step st (Event.close sid t)).2 = [Output.rejectOut e.caller ErrMsg.disconnected] ∧
    t < tm.due := by
  refine ⟨?_, ?_, ht⟩ <;> simp [step, hp]

/-- C3 witness: a close processed at 5000, well before the 10100
deadline of the pending timer. -/
theorem c3_disconnect_before_deadline_witness :
    (step stPend (Event.close 1 5000)).1.pendingRequest = none ∧
    (step stPend (Event.close 1 5000)).2 = [Output.rejectOut 1 ErrMsg.disconnected] ∧
    5000 < (⟨101, 1, 10100⟩ : Timer).due :=
  c3_disconnect_before_deadline stPend ⟨"req-1", 1, 101⟩ ⟨101, 1, 10100⟩ 1 5000
    rfl rfl (by decide) (by decide)

/-- C10: the close handler of a replaced socket still runs
unconditionally when that old socket closes (the handler body at
lines 206-215 never checks which socket fired), clearing the
connection slot and rejecting any pending entry with the disconnect
error even though the newer stored transport is live; afterwards
isConnected reports false. -/
theorem c10_stale_close_clears_live_connection (st : RelayState) (s2 : Socket)
    (e : Entry) (sid t : Nat)
    (hs : st.extensionSocket = some s2) (hlive : s2.readyState = 1)
    (hp : st.pendingRequest = some e) :
    isConnected st = true ∧
    (step st (Event.close sid t)).1.extensionSocket = none ∧
    isConnected (step st (Event.close sid t)).1 = false ∧
    (step st (Event.close sid t)).2 = [Output.rejectOut e.caller ErrMsg.disconnected] := by
  refine ⟨?_, ?_, ?_, ?_⟩
  · simp [isConnected, hs, hlive]
  · simp [step, hp]
  · simp [step, hp, isConnected]
  · simp [step, hp]

/-- C10 witness: the live replacement socket is stored while the close
of the first socket arrives. -/
theorem c10_stale_close_clears_live_connection_witness :
    isConnected ⟨some sock2, some ⟨"req-1", 1, 101⟩, [⟨101, 1, 10100⟩]⟩ = true ∧
    (step ⟨some sock2, some ⟨"req-1", 1, 101⟩, [⟨101, 1, 10100⟩]⟩
      (Event.close 1 700)).1.extensionSocket = none ∧
    isConnected (step ⟨some sock2, some ⟨"req-1", 1, 101⟩, [⟨101, 1, 10100⟩]⟩
      (Event.close 1 700)).1 = false ∧
    (step ⟨some sock2, some ⟨"req-1", 1, 101⟩, [⟨101, 1, 10100⟩]⟩
      (Event.close 1 700)).2 = [Output.rejectOut 1 ErrMsg.disconnected] :=
  c10_stale_close_clears_live_connection
    ⟨some sock2, some ⟨"req-1", 1, 101⟩, [⟨101, 1, 10100⟩]⟩ sock2 ⟨"req-1", 1, 101⟩
    1 700 rfl rfl rfl

/-- C1 (amended): a well-formed command accepted while connected is
sent exactly once and suspends the caller; if a response with the same
id arrives while the entry is still pending, a success response is
resolved and reaches the HTTP caller verbatim as 200 with exactly its
success and data, while a failure response is rejected with the
response data as the error detail when that data is truthy, with the
string "Unknown error" substituted in its place when the data is falsy
(for example an empty string), reaching the caller as a 500
success-false body carrying that detail. -/
theorem c1_matching_response_relayed (st st2 : RelayState) (outs : List Output)
    (pr : PostResult) (c : String) (url scope : Option String) (fresh : String)
    (caller tid now : Nat) (sendErr : String)
    (hconn : isConnected st = true) (hc : c ≠ "")
    (hrun : handleCommandPost st (CmdBody.parsed (some c) url scope) fresh caller tid now true sendErr
      = (st2, outs, pr)) :
    pr = PostResult.awaiting ⟨fresh, c, url, scope⟩ caller ∧
    outs = [Output.sendOut ⟨fresh, c, url, scope⟩] ∧
    st2.pendingRequest = some ⟨fresh, caller, tid⟩ ∧
    (∀ r : Response, r.id = fresh →
      (r.success = true →
        (step st2 (Event.message (RawFrame.wellFormed r))).2 = [Output.resolveOut caller r] ∧
        settleToHttp (Output.resolveOut caller r) = some (200, HttpBody.responseBody r)) ∧
      (r.success = false →
        (step st2 (Event.message (RawFrame.wellFormed r))).2 =
          [Output.rejectOut caller (ErrMsg.responseError (errDetail r.data))] ∧
        settleToHttp (Output.rejectOut caller (ErrMsg.responseError (errDetail r.data))) =
          some (500, HttpBody.failure (ErrMsg.responseError (errDetail r.data))))) := by
  have hm : missingCommand (some c) = false := by
    simp [missingCommand, hc]
  have hcomp : handleCommandPost st (CmdBody.parsed (some c) url scope) fresh caller tid now true sendErr
      = ({ st with
           pendingRequest := some ⟨fresh, caller, tid⟩,
           timers := ⟨tid, caller, now + 10000⟩ :: st.timers },
         [Output.sendOut ⟨fresh, c, url, scope⟩],
         PostResult.awaiting ⟨fresh, c, url, scope⟩ caller) := by
    simp [handleCommandPost, hm, sendToExtension, hconn]
  rw [hrun] at hcomp
  have hst2 : st2 = { st with
      pendingRequest := some ⟨fresh, caller, tid⟩,
      timers := ⟨tid, caller, now + 10000⟩ :: st.timers } :=
    congrArg Prod.fst hcomp
  have houts : outs = [Output.sendOut ⟨fresh, c, url, scope⟩] :=
    congrArg (fun p => p.2.1) hcomp
  have hpr : pr = PostResult.awaiting ⟨fresh, c, url, scope⟩ caller :=
    congrArg (fun p => p.2.2) hcomp
  have hpend : st2.pendingRequest = some ⟨fresh, caller, tid⟩ := by
    rw [hst2]
  refine ⟨hpr, houts, hpend, ?_⟩
  intro r hr
  have hid : fresh = r.id := hr.symm
  constructor
  · intro hs
    refine ⟨?_, rfl⟩
    simp [step, handleExtensionResponse, hpend, hid, hs]
  · intro hs
    refine ⟨?_, rfl⟩
    simp [step, handleExtensionResponse, hpend, hid, hs]

/-- C1 witness: a concrete ping round trip whose success response
reaches the caller exactly. -/
theorem c1_matching_response_relayed_witness :
    (⟨some sock1, some ⟨"f-1", 9, 201⟩, [⟨201, 9, 10000⟩]⟩ : RelayState).pendingRequest =
      some ⟨"f-1", 9, 201⟩ ∧
    (step ⟨some sock1, some ⟨"f-1", 9, 201⟩, [⟨201, 9, 10000⟩]⟩
      (Event.message (RawFrame.wellFormed ⟨"f-1", true, JVal.jstr "pong"⟩))).2 =
      [Output.resolveOut 9 ⟨"f-1", true, JVal.jstr "pong"⟩] := by
  have h := c1_matching_response_relayed ⟨some sock1, none, []⟩
    ⟨some sock1, some ⟨"f-1", 9, 201⟩, [⟨201, 9, 10000⟩]⟩
    [Output.sendOut ⟨"f-1", "ping", none, none⟩]
    (PostResult.awaiting ⟨"f-1", "ping", none, none⟩ 9)
    "ping" none none "f-1" 9 201 0 "" (by decide) (by decide) rfl
  exact ⟨h.2.2.1, ((h.2.2.2 ⟨"f-1", true, JVal.jstr "pong"⟩ rfl).1 rfl).1⟩

/-- C1 counterexample: a failure response whose data is the empty
string (well formed, falsy) is rejected with the substituted
"Unknown error" detail, not with the response data itself, so the
caller does not receive exactly the response data. -/
theorem c1_falsy_data_counterexample :
    (step stC1after (Event.message (RawFrame.wellFormed ⟨"f-1", false, JVal.jstr ""⟩))).2 =
      [Output.rejectOut 9 (ErrMsg.responseError (JVal.jstr "Unknown error"))] ∧
    (step stC1after (Event.message (RawFrame.wellFormed ⟨"f-1", false, JVal.jstr ""⟩))).2 ≠
      [Output.rejectOut 9 (ErrMsg.responseError (JVal.jstr ""))] := by
  decide

/-- C4 (amended): the deadline timer is cancelled when a matching
response settles the entry and when socket.send throws (the just-armed
timer is cleared again); on disconnect the close handler rejects the
entry and clears the slot but leaves its timer armed (no clearTimeout
at lines 206-215); timer firing is the only source of the timeout
error, and a firing timer always clears the slot as a terminal
action. -/
theorem c4_timer_cancellation_paths (st : RelayState) (e : Entry) (r : Response)
    (req : Request) (caller tid now sid t1 t2 : Nat) (sendErr : String) :
    (st.pendingRequest = some e → e.id = r.id →
      (step st (Event.message (RawFrame.wellFormed r))).1.timers =
        removeTimer e.timeout st.timers) ∧
    (isConnected st = true →
      (step st (Event.submit req caller tid now false sendErr)).1.timers = st.timers ∧
      (step st (Event.submit req caller tid now false sendErr)).1.pendingRequest = none ∧
      (step st (Event.submit req caller tid now false sendErr)).2 =
        [Output.rejectOut caller (ErrMsg.sendError sendErr)]) ∧
    ((step st (Event.close sid t1)).1.timers = st.timers ∧
     (st.pendingRequest = some e →
       (step st (Event.close sid t1)).2 = [Output.rejectOut e.caller ErrMsg.disconnected])) ∧
    (∀ (ev : Event) (c2 : Nat),
      Output.rejectOut c2 ErrMsg.requestTimeout ∈ (step st ev).2 →
      ∃ tid2 t3, ev = Event.timerFire tid2 t3) ∧
    (∀ tm : Timer, st.timers.find? (fun x => x.tid == tid) = some tm →
      (step st (Event.timerFire tid t2)).1.pendingRequest = none ∧
      (step st (Event.timerFire tid t2)).1.timers = removeTimer tid st.timers ∧
      (step st (Event.timerFire tid t2)).2 =
        [Output.rejectOut tm.caller ErrMsg.requestTimeout]) := by
  refine ⟨?_, ?_, ⟨?_, ?_⟩, ?_, ?_⟩
  · intro hp hid
    simp [step, handleExtensionResponse, hp, hid]
  · intro hconn
    refine ⟨?_, ?_, ?_⟩ <;> simp [step, sendToExtension, hconn]
  · cases hp2 : st.pendingRequest <;> simp [step, hp2]
  · intro hp
    simp [step, hp]
  · intro ev c2 hmem
    cases ev with
    | connect s => simp [step] at hmem
    | close sid2 t4 =>
      cases hp2 : st.pendingRequest with
      | none => simp [step, hp2] at hmem
      | some e2 => simp [step, hp2] at hmem
    | message frame =>
      cases frame with
      | malformed m => simp [step, handleExtensionResponse] at hmem
      | wellFormed r2 =>
        cases hp2 : st.pendingRequest with
        | none => simp [step, handleExtensionResponse, hp2] at hmem
        | some e2 =>
          by_cases hid : e2.id = r2.id
          · cases hs : r2.success
            · simp [step, handleExtensionResponse, hp2, hid, hs] at hmem
            · simp [step, handleExtensionResponse, hp2, hid, hs] at hmem
          · simp [step, handleExtensionResponse, hp2, hid] at hmem
    | submit req2 c3 tid3 now3 ok3 err3 =>
      cases hco : isConnected st with
      | false => simp [step, sendToExtension, hco] at hmem
      | true =>
        cases ok3 with
        | false => simp [step, sendToExtension, hco] at hmem
        | true => simp [step, sendToExtension, hco] at hmem
    | timerFire tid2 t3 => exact ⟨tid2, t3, rfl⟩
  · intro tm hfind
    refine ⟨?_, ?_, ?_⟩ <;> simp [step, fireTimer, hfind]

/-- C4 witness: the response path cancels the timer of the settled
entry and the close path leaves the timer list untouched. -/
theorem c4_timer_cancellation_paths_witness :
    (step stPend (Event.message (RawFrame.wellFormed ⟨"req-1", true, JVal.jstr "pong"⟩))).1.timers =
      removeTimer 101 stPend.timers ∧
    (step stPend (Event.close 1 500)).1.timers = stPend.timers := by
  have h := c4_timer_cancellation_paths stPend ⟨"req-1", 1, 101⟩
    ⟨"req-1", true, JVal.jstr "pong"⟩ req1 1 101 0 1 500 502 ""
  exact ⟨h.1 rfl rfl, h.2.2.1.1⟩

/-- C4 counterexample: a disconnect with an entry pending does not
cancel the deadline timer of that entry; the timer a cancelling
disconnect would have removed is still armed after the close step. -/
theorem c4_close_keeps_timer_counterexample :
    (step stPend (Event.close 1 600)).1.timers = [(⟨101, 1, 10100⟩ : Timer)] ∧
    removeTimer 101 stPend.timers = [] := by
  decide

/-- C2 (amended): the pending slot holds at most one entry at any
instant; a second submit while one is pending silently overwrites the
slot without cancelling the first timer and without settling the first
caller, whose promise can then never be resolved (a matching response
is dropped against the new id); the first timer however remains armed
and, when it fires, rejects the first caller with the timeout error
while unconditionally clearing the slot, orphaning whatever entry then
occupies it. -/
theorem c2_overwrite_orphans_first_caller (st : RelayState) (e1 : Entry) (req : Request)
    (c2 tid2 now t2 : Nat) (sendErr : String)
    (hconn : isConnected st = true) (hp : st.pendingRequest = some e1)
    (hne : c2 ≠ e1.caller) :
    (∀ s : RelayState, s.pendingRequest.toList.length ≤ 1) ∧
    (step st (Event.submit req c2 tid2 now true sendErr)).1.pendingRequest =
      some ⟨req.id, c2, tid2⟩ ∧
    (∀ tm ∈ st.timers, tm ∈ (step st (Event.submit req c2 tid2 now true sendErr)).1.timers) ∧
    (∀ o ∈ (step st (Event.submit req c2 tid2 now true sendErr)).2, o = Output.sendOut req) ∧
    (∀ evs : List Event, (∀ ev ∈ evs, avoidsSubmitBy e1.caller ev) →
      ∀ r : Response, Output.resolveOut e1.caller r ∉
        (runEvents (step st (Event.submit req c2 tid2 now true sendErr)).1 evs).2) ∧
    (∀ (st2 : RelayState) (tm : Timer) (tid3 : Nat),
      st2.timers.find? (fun x => x.tid == tid3) = some tm →
      (step st2 (Event.timerFire tid3 t2)).1.pendingRequest = none ∧
      Output.rejectOut tm.caller ErrMsg.requestTimeout ∈ (step st2 (Event.timerFire tid3 t2)).2) := by
  refine ⟨?_, ?_, ?_, ?_, ?_, ?_⟩
  · intro s
    cases s.pendingRequest <;> simp
  · simp [step, sendToExtension, hconn]
  · intro tm hmem
    have ht : (step st (Event.submit req c2 tid2 now true sendErr)).1.timers
        = ⟨tid2, c2, now + 10000⟩ :: st.timers := by
      simp [step, sendToExtension, hconn]
    rw [ht]
    exact List.mem_cons_of_mem _ hmem
  · intro o ho
    have ho2 : (step st (Event.submit req c2 tid2 now true sendErr)).2
        = [Output.sendOut req] := by
      simp [step, sendToExtension, hconn]
    rw [ho2] at ho
    exact List.mem_singleton.mp ho
  · intro evs hav r
    have hinv : notMine e1.caller (step st (Event.submit req c2 tid2 now true sendErr)).1 := by
      intro e he
      have hpe : (step st (Event.submit req c2 tid2 now true sendErr)).1.pendingRequest
          = some (⟨req.id, c2, tid2⟩ : Entry) := by
        simp [step, sendToExtension, hconn]
      rw [hpe] at he
      cases he
      exact hne
    exact run_no_resolve e1.caller evs _ hinv hav r
  · intro st2 tm tid3 hfind
    refine ⟨?_, ?_⟩ <;> simp [step, fireTimer, hfind]

/-- C2 witness: from the connected pending state, a second submit
overwrites the slot with the second entry while the first timer stays
armed. -/
theorem c2_overwrite_orphans_first_caller_witness :
    (step stPend (Event.submit req2 2 102 5 true "")).1.pendingRequest =
      some ⟨"req-2", 2, 102⟩ ∧
    (⟨101, 1, 10100⟩ : Timer) ∈ (step stPend (Event.submit req2 2 102 5 true "")).1.timers := by
  have h := c2_overwrite_orphans_first_caller stPend ⟨"req-1", 1, 101⟩ req2 2 102 5 10100 ""
    (by decide) rfl (by decide)
  exact ⟨h.2.1, h.2.2.1 ⟨101, 1, 10100⟩ (by decide)⟩

/-- C2 counterexample: the overwritten first caller does receive a
timeout: its uncancelled timer fires at its deadline and invokes the
first reject with the timeout error (thereby also clearing the slot
that by then holds the second entry), refuting that the first caller
never times out once overwritten. -/
theorem c2_first_caller_does_time_out :
    Output.rejectOut 1 ErrMsg.requestTimeout ∈
      (runEvents st0 [Event.connect sock1, Event.submit req1 1 101 0 true "",
        Event.submit req2 2 102 5 true "", Event.timerFire 101 10000]).2 ∧
    (runEvents st0 [Event.connect sock1, Event.submit req1 1 101 0 true "",
        Event.submit req2 2 102 5 true "", Event.timerFire 101 10000]).1.pendingRequest =
      none := by
  decide
